import Mathlib

/-!
Verification of the MIDI input decoder from `MIDI.c` / `MIDI.h`.

The C source keeps its decoder state in module-level globals
(`MIDI_cmd_state`, `MIDI_message_length`, `MIDI_cmd_stage`, `MIDI_channel`)
and two cursor variables over the DMA receive buffer
(`MIDI_buffer_index`, `MIDI_max_valid`).  We embed that state as an
explicit `State` record and the per-byte body of the `MIDI_check` loop as
a pure step function returning the successor state together with the list
of callback invocations (events) it issues, in order.  Machine integers
are modelled as `Nat`; the one place where C integer conversion matters
(the `int` pitch-bend expression passed to the `uint16_t` parameter of
`MIDI_pitchBend`) is modelled with an explicit `Int.emod 65536`.
-/

namespace MIDI

/-- `MIDI_MAX_CMD_LEN` from MIDI.c (default 8). -/
def MIDI_MAX_CMD_LEN : Nat := 8

/-- `MIDI_BUFF_SIZE` from MIDI.c (default 128). -/
def MIDI_BUFF_SIZE : Nat := 128

/-- `MIDI_CHANNEL_ALL` from MIDI.h (0xFF means listen to all channels). -/
def MIDI_CHANNEL_ALL : Nat := 0xFF

/-- One callback invocation: which of the five user callbacks was called and
with which arguments.  `pitchBend` carries the `uint16_t` value the callback
actually receives (the C call site computes an `int` and converts it). -/
inductive Event where
  | noteOn (note_num velocity : Nat)
  | noteOff (note_num velocity : Nat)
  | cc (control_num value : Nat)
  | pitchBend (pitchbend : Int)
  | systemReset
deriving DecidableEq, Repr

/-- The decoder's global state in MIDI.c: `MIDI_cmd_state`,
`MIDI_message_length`, `MIDI_cmd_stage` (a `uint8_t[MIDI_MAX_CMD_LEN]`,
modelled as a `List Nat` of length 8) and `MIDI_channel`. -/
structure State where
  cmd_state : Nat
  message_length : Nat
  stage : List Nat
  channel : Nat
deriving DecidableEq, Repr

/-- The `uint16_t` actually passed to `MIDI_pitchBend` in `MIDI_parse`:
the C expression `((stage[1] & 0x7F) | ((stage[2] & 0x7F) << 7)) - 8192`
is computed in `int` and then converted to the callback's `uint16_t`
parameter, i.e. reduced modulo 2^16. -/
def MIDI_pitchBend_param (b1 b2 : Nat) : Int :=
  ((((b1 &&& 0x7F) ||| ((b2 &&& 0x7F) <<< 7) : Nat) : Int) - 8192) % 65536

/-- `MIDI_parse` from MIDI.c: interpret the completed command in
`MIDI_cmd_stage` and issue the corresponding callback.  Returns the new
state (the only field `MIDI_parse` writes is `MIDI_cmd_state`) and the
list of callbacks issued. -/
def MIDI_parse (s : State) : State × List Event :=
  let status_msb := s.stage.getD 0 0 >>> 4
  let status_lsb := s.stage.getD 0 0 &&& 0xF
  if s.channel = MIDI_CHANNEL_ALL ∨ status_lsb = s.channel then
    if status_msb = 0x8 then
      ({ s with cmd_state := 0 },
       [.noteOff (s.stage.getD 1 0 &&& 0x7F) (s.stage.getD 2 0 &&& 0x7F)])
    else if status_msb = 0x9 then
      ({ s with cmd_state := 0 },
       if s.stage.getD 2 0 = 0 then
         [.noteOff (s.stage.getD 1 0 &&& 0x7F) 0]
       else
         [.noteOn (s.stage.getD 1 0 &&& 0x7F) (s.stage.getD 2 0 &&& 0x7F)])
    else if status_msb = 0xB then
      ({ s with cmd_state := 0 },
       [.cc (s.stage.getD 1 0) (s.stage.getD 2 0)])
    else if status_msb = 0xE then
      ({ s with cmd_state := 0 },
       [.pitchBend (MIDI_pitchBend_param (s.stage.getD 1 0) (s.stage.getD 2 0))])
    else
      (s, [])
  else
    (s, [])

/-- The status-byte classification inside `MIDI_check` (MIDI.c lines
213-230): the value assigned to `MIDI_message_length` for a status byte. -/
def MIDI_classify_length (new_byte : Nat) : Nat :=
  let status_msb := new_byte >>> 4
  if status_msb = 0x8 ∨ status_msb = 0x9 ∨ status_msb = 0xA ∨ status_msb = 0xB ∨ status_msb = 0xE then
    2
  else if status_msb = 0xC ∨ status_msb = 0xD then
    1
  else if new_byte = 0xF1 ∨ new_byte = 0xF3 then
    1
  else if new_byte = 0xF2 then
    2
  else
    0xFF

/-- The byte classification / parser-position update / staging write of the
`MIDI_check` loop body (MIDI.c lines 204-243), i.e. everything the loop does
for one byte except the completion check.  Note `List.set` past the end of
the list is the identity, which coincides with the C guard
`if (MIDI_cmd_state < MIDI_MAX_CMD_LEN)` because `stage` has length 8; the
guard is kept explicit to mirror the source. -/
def MIDI_fsm (s : State) (new_byte : Nat) : State × List Event :=
  let s1evs :=
    if new_byte = 0xFF then
      ({ s with cmd_state := 0, message_length := 0xFF }, [Event.systemReset])
    else if 0x80 ≤ new_byte then
      ({ s with cmd_state := 0, message_length := MIDI_classify_length new_byte },
       ([] : List Event))
    else
      (if s.cmd_state < MIDI_MAX_CMD_LEN then
         { s with cmd_state := s.cmd_state + 1 }
       else
         { s with cmd_state := 0 }, [])
  let s1 := s1evs.1
  if s1.cmd_state < MIDI_MAX_CMD_LEN then
    ({ s1 with stage := s1.stage.set s1.cmd_state new_byte }, s1evs.2)
  else
    (s1, s1evs.2)

/-- One full iteration of the `MIDI_check` loop body (MIDI.c lines 203-248)
for the byte `new_byte`: the FSM advance followed by the completion check
`if (MIDI_cmd_state >= MIDI_message_length)` and, when it fires, `MIDI_parse`. -/
def MIDI_step (s : State) (new_byte : Nat) : State × List Event :=
  let s2evs := MIDI_fsm s new_byte
  let s2 := s2evs.1
  if s2.message_length ≤ s2.cmd_state then
    let s3evs := MIDI_parse s2
    (s3evs.1, s2evs.2 ++ s3evs.2)
  else
    (s2, s2evs.2)

/-- Run the `MIDI_check` loop body over a list of buffer bytes in order,
collecting all callback invocations. -/
def MIDI_run (s : State) : List Nat → State × List Event
  | [] => (s, [])
  | b :: bs =>
    let s1evs := MIDI_step s b
    let s2evs := MIDI_run s1evs.1 bs
    (s2evs.1, s1evs.2 ++ s2evs.2)

/-- `MIDI_init` from MIDI.c restricted to the decoder state: it sets
`MIDI_message_length = MIDI_BUFF_SIZE` and computes `MIDI_channel` from the
1-based `channel` argument; `MIDI_cmd_state` and `MIDI_cmd_stage` keep their
zero initial values (C globals are zero-initialized). -/
def MIDI_init (channel : Nat) : State :=
  { cmd_state := 0
    message_length := MIDI_BUFF_SIZE
    stage := List.replicate MIDI_MAX_CMD_LEN 0
    channel := if 0 < channel ∧ channel ≤ 16 then channel - 1 else MIDI_CHANNEL_ALL }

/-- The cursor update at the end of a `MIDI_check` pass (MIDI.c lines
250-253): `MIDI_buffer_index = MIDI_max_valid;
if (MIDI_buffer_index >= MIDI_BUFF_SIZE - 1) MIDI_buffer_index = 0;`. -/
def MIDI_next_index (max_valid : Nat) : Nat :=
  if MIDI_BUFF_SIZE - 1 ≤ max_valid then 0 else max_valid

/-- The buffer positions the `MIDI_check` loop
`for (int i = MIDI_buffer_index; i < MIDI_max_valid; i++)` reads in one
pass: `buffer_index, buffer_index+1, ..., max_valid-1`. -/
def MIDI_consumed (buffer_index max_valid : Nat) : List Nat :=
  List.range' buffer_index (max_valid - buffer_index)

/-- `MIDI_check` from MIDI.c with the rx flag set: feed the bytes at
positions `[buffer_index, max_valid)` of the receive buffer to the decoder
and update the cursor.  Returns the decoder state, the new
`MIDI_buffer_index` and the callbacks issued. -/
def MIDI_check (s : State) (buffer_index max_valid : Nat) (buffer : List Nat) :
    State × Nat × List Event :=
  let bytes := (MIDI_consumed buffer_index max_valid).map (fun i => buffer.getD i 0)
  let sevs := MIDI_run s bytes
  (sevs.1, MIDI_next_index max_valid, sevs.2)

/-- The per-pass consumed-position lists of a sequence of `MIDI_check`
passes whose valid indices are `vs`, starting from `MIDI_buffer_index = b`:
each pass consumes `MIDI_consumed b v` and leaves the cursor at
`MIDI_next_index v`. -/
def MIDI_passes (b : Nat) : List Nat → List (List Nat)
  | [] => []
  | v :: vs => MIDI_consumed b v :: MIDI_passes (MIDI_next_index v) vs

/-- A well-formed within-cycle sequence of transport valid indices: the
transport only advances `valid_index` up to the buffer capacity within one
DMA cycle, and every pass except the last stops strictly below
`MIDI_BUFF_SIZE - 1`. -/
def MIDI_valid_seq : List Nat → Prop
  | [] => True
  | [v] => v ≤ MIDI_BUFF_SIZE
  | v :: w :: vs => v < MIDI_BUFF_SIZE - 1 ∧ v ≤ w ∧ MIDI_valid_seq (w :: vs)

/-- Core of the decoder bisimulation: the two states agree on everything
`MIDI_parse` can observe.  They share the expected length and staging slot
0; staging slots 1 and 2 agree as far as the parser position has filled
them; and whenever slot 0 holds a status byte the dispatcher recognizes
(nibble 0x8/0x9/0xB/0xE), the recorded length is 2, so a dispatch can only
fire after slots 1 and 2 have been rewritten. -/
def MIDI_simLive (s t : State) : Prop :=
  s.message_length = t.message_length ∧
  s.stage.getD 0 0 = t.stage.getD 0 0 ∧
  ((s.stage.getD 0 0 >>> 4 = 0x8 ∨ s.stage.getD 0 0 >>> 4 = 0x9 ∨
    s.stage.getD 0 0 >>> 4 = 0xB ∨ s.stage.getD 0 0 >>> 4 = 0xE) →
      s.message_length = 2) ∧
  ∀ i, 1 ≤ i → i ≤ 2 → i ≤ s.cmd_state → s.stage.getD i 0 = t.stage.getD i 0

/-- Decoder bisimulation: two states that produce identical callback
sequences on every further input.  Either the states are `MIDI_simLive`,
or both expected lengths exceed `MIDI_MAX_CMD_LEN`, in which case neither
state can complete a command before the next status byte rewrites both
states identically. -/
def MIDI_sim (s t : State) : Prop :=
  s.channel = t.channel ∧
  s.stage.length = MIDI_MAX_CMD_LEN ∧ t.stage.length = MIDI_MAX_CMD_LEN ∧
  s.cmd_state = t.cmd_state ∧ s.cmd_state ≤ MIDI_MAX_CMD_LEN ∧
  (MIDI_simLive s t ∨
    (MIDI_MAX_CMD_LEN < s.message_length ∧ MIDI_MAX_CMD_LEN < t.message_length))

end MIDI

namespace MIDI

lemma getD_set_self {l : List Nat} {i : Nat} (a : Nat) (h : i < l.length) :
    (l.set i a).getD i 0 = a := by
  simp [List.getD_eq_getElem?_getD, List.getElem?_set_self h]

lemma getD_set_ne {l : List Nat} {i j : Nat} (a : Nat) (h : i ≠ j) :
    (l.set i a).getD j 0 = l.getD j 0 := by
  simp [List.getD_eq_getElem?_getD, List.getElem?_set_ne h]

lemma and_0x7F_of_lt {d : Nat} (h : d < 0x80) : d &&& 0x7F = d := by
  have : d &&& 2 ^ 7 - 1 = d := Nat.and_pow_two_sub_one_of_lt_two_pow (by norm_num at h ⊢; omega)
  simpa using this

lemma shiftRight4_lt {b : Nat} (h : b < 0x80) : b >>> 4 < 8 := by
  rw [Nat.shiftRight_eq_div_pow]
  omega

lemma shiftRight4_ge {b : Nat} (h : 0x80 ≤ b) : 8 ≤ b >>> 4 := by
  rw [Nat.shiftRight_eq_div_pow]
  omega

lemma MIDI_classify_length_pos (b : Nat) : 1 ≤ MIDI_classify_length b := by
  simp only [MIDI_classify_length]
  split_ifs <;> norm_num

lemma MIDI_classify_length_two {b : Nat}
    (h : b >>> 4 = 0x8 ∨ b >>> 4 = 0x9 ∨ b >>> 4 = 0xB ∨ b >>> 4 = 0xE) :
    MIDI_classify_length b = 2 := by
  unfold MIDI_classify_length
  rw [if_pos]
  tauto

lemma MIDI_fsm_reset (s : State) :
    MIDI_fsm s 0xFF =
      ({ s with cmd_state := 0, message_length := 0xFF, stage := s.stage.set 0 0xFF },
       [Event.systemReset]) := by
  simp [MIDI_fsm, MIDI_MAX_CMD_LEN]

lemma MIDI_step_reset (s : State) :
    MIDI_step s 0xFF =
      ({ s with cmd_state := 0, message_length := 0xFF, stage := s.stage.set 0 0xFF },
       [Event.systemReset]) := by
  simp [MIDI_step, MIDI_fsm_reset]

lemma MIDI_fsm_status (s : State) {b : Nat} (hb : 0x80 ≤ b) (hb' : b ≠ 0xFF) :
    MIDI_fsm s b =
      ({ s with cmd_state := 0, message_length := MIDI_classify_length b,
                stage := s.stage.set 0 b }, []) := by
  simp [MIDI_fsm, MIDI_MAX_CMD_LEN, hb, hb']

lemma MIDI_step_status (s : State) {b : Nat} (hb : 0x80 ≤ b) (hb' : b ≠ 0xFF) :
    MIDI_step s b =
      ({ s with cmd_state := 0, message_length := MIDI_classify_length b,
                stage := s.stage.set 0 b }, []) := by
  have h1 := MIDI_classify_length_pos b
  simp [MIDI_step, MIDI_fsm_status s hb hb']
  omega

lemma MIDI_fsm_data_incr (s : State) {b : Nat} (hb : b < 0x80)
    (hc : s.cmd_state < MIDI_MAX_CMD_LEN) :
    MIDI_fsm s b =
      if s.cmd_state + 1 < MIDI_MAX_CMD_LEN then
        ({ s with cmd_state := s.cmd_state + 1,
                  stage := s.stage.set (s.cmd_state + 1) b }, [])
      else
        ({ s with cmd_state := s.cmd_state + 1 }, []) := by
  have : ¬ 0x80 ≤ b := by omega
  have : b ≠ 0xFF := by omega
  simp [MIDI_fsm, hc, *]

lemma MIDI_fsm_data_wrap (s : State) {b : Nat} (hb : b < 0x80)
    (hc : ¬ s.cmd_state < MIDI_MAX_CMD_LEN) :
    MIDI_fsm s b =
      ({ s with cmd_state := 0, stage := s.stage.set 0 b }, []) := by
  have h1 : ¬ 0x80 ≤ b := by omega
  have h2 : b ≠ 0xFF := by omega
  simp only [MIDI_MAX_CMD_LEN] at hc
  simp [MIDI_fsm, MIDI_MAX_CMD_LEN, hc, h1, h2]

lemma MIDI_parse_state (s : State) :
    (MIDI_parse s).1 = { s with cmd_state := 0 } ∨ (MIDI_parse s).1 = s := by
  simp only [MIDI_parse]
  split_ifs <;> simp

lemma MIDI_parse_message_length (s : State) :
    (MIDI_parse s).1.message_length = s.message_length := by
  rcases MIDI_parse_state s with h | h <;> rw [h]

lemma MIDI_parse_channel (s : State) : (MIDI_parse s).1.channel = s.channel := by
  rcases MIDI_parse_state s with h | h <;> rw [h]

lemma MIDI_parse_stage (s : State) : (MIDI_parse s).1.stage = s.stage := by
  rcases MIDI_parse_state s with h | h <;> rw [h]

lemma MIDI_parse_not_recognized {s : State}
    (h : ¬(s.stage.getD 0 0 >>> 4 = 0x8 ∨ s.stage.getD 0 0 >>> 4 = 0x9 ∨
           s.stage.getD 0 0 >>> 4 = 0xB ∨ s.stage.getD 0 0 >>> 4 = 0xE)) :
    MIDI_parse s = (s, []) := by
  push_neg at h
  obtain ⟨h8, h9, hB, hE⟩ := h
  simp only [MIDI_parse]
  split_ifs <;> simp_all

lemma MIDI_parse_channel_mismatch {s : State}
    (h : ¬(s.channel = MIDI_CHANNEL_ALL ∨ s.stage.getD 0 0 &&& 0xF = s.channel)) :
    MIDI_parse s = (s, []) := by
  simp only [MIDI_parse]
  rw [if_neg h]

lemma MIDI_fsm_cmd_state_le (s : State) (b : Nat) :
    (MIDI_fsm s b).1.cmd_state ≤ MIDI_MAX_CMD_LEN := by
  simp only [MIDI_fsm, MIDI_MAX_CMD_LEN]
  split_ifs <;> simp <;> omega

lemma MIDI_fsm_channel (s : State) (b : Nat) : (MIDI_fsm s b).1.channel = s.channel := by
  simp only [MIDI_fsm]
  split_ifs <;> simp

lemma MIDI_fsm_stage_length (s : State) (b : Nat) :
    (MIDI_fsm s b).1.stage.length = s.stage.length := by
  simp only [MIDI_fsm]
  split_ifs <;> simp

lemma MIDI_step_cmd_state_le (s : State) (b : Nat) :
    (MIDI_step s b).1.cmd_state ≤ MIDI_MAX_CMD_LEN := by
  have h1 := MIDI_fsm_cmd_state_le s b
  simp only [MIDI_step]
  split_ifs
  · rcases MIDI_parse_state (MIDI_fsm s b).1 with h | h
    · simp [h]
    · dsimp only
      rw [h]
      exact h1
  · exact h1

lemma MIDI_step_channel (s : State) (b : Nat) : (MIDI_step s b).1.channel = s.channel := by
  have h1 := MIDI_fsm_channel s b
  simp only [MIDI_step]
  split_ifs
  · rw [MIDI_parse_channel, h1]
  · exact h1

lemma MIDI_step_stage_length (s : State) (b : Nat) :
    (MIDI_step s b).1.stage.length = s.stage.length := by
  have h1 := MIDI_fsm_stage_length s b
  simp only [MIDI_step]
  split_ifs
  · rw [MIDI_parse_stage, h1]
  · exact h1

lemma MIDI_run_append (s : State) (xs ys : List Nat) :
    MIDI_run s (xs ++ ys) =
      ((MIDI_run (MIDI_run s xs).1 ys).1,
       (MIDI_run s xs).2 ++ (MIDI_run (MIDI_run s xs).1 ys).2) := by
  induction xs generalizing s with
  | nil => simp [MIDI_run]
  | cons x xs ih => simp [MIDI_run, ih]

lemma MIDI_run_channel (s : State) (bs : List Nat) :
    (MIDI_run s bs).1.channel = s.channel := by
  induction bs generalizing s with
  | nil => rfl
  | cons b bs ih => simp [MIDI_run, ih, MIDI_step_channel]

lemma MIDI_run_stage_length (s : State) (bs : List Nat) :
    (MIDI_run s bs).1.stage.length = s.stage.length := by
  induction bs generalizing s with
  | nil => rfl
  | cons b bs ih => simp [MIDI_run, ih, MIDI_step_stage_length]

lemma MIDI_run_cmd_state_le (s : State) (bs : List Nat)
    (h : s.cmd_state ≤ MIDI_MAX_CMD_LEN) :
    (MIDI_run s bs).1.cmd_state ≤ MIDI_MAX_CMD_LEN := by
  induction bs generalizing s with
  | nil => exact h
  | cons b bs ih => simp [MIDI_run]; exact ih _ (MIDI_step_cmd_state_le s b)

lemma MIDI_parse_cmd_state_le (s : State) :
    (MIDI_parse s).1.cmd_state ≤ s.cmd_state := by
  rcases MIDI_parse_state s with h | h <;> simp [h]

lemma MIDI_simLive_parse {u v : State} (h : MIDI_simLive u v) :
    MIDI_simLive (MIDI_parse u).1 (MIDI_parse v).1 := by
  obtain ⟨hml, h0, hrec, hslot⟩ := h
  refine ⟨?_, ?_, ?_, ?_⟩
  · rw [MIDI_parse_message_length, MIDI_parse_message_length, hml]
  · rw [MIDI_parse_stage, MIDI_parse_stage, h0]
  · rw [MIDI_parse_stage, MIDI_parse_message_length]
    exact hrec
  · intro i h1 h2 h3
    rw [MIDI_parse_stage, MIDI_parse_stage]
    exact hslot i h1 h2 (le_trans h3 (MIDI_parse_cmd_state_le u))

lemma MIDI_parse_sim {s t : State} (hch : s.channel = t.channel)
    (hcs : s.cmd_state = t.cmd_state) (hlive : MIDI_simLive s t)
    (htr : s.message_length ≤ s.cmd_state) :
    (MIDI_parse s).2 = (MIDI_parse t).2 ∧
      (MIDI_parse s).1.cmd_state = (MIDI_parse t).1.cmd_state := by
  obtain ⟨hml, h0, hrec, hslot⟩ := hlive
  by_cases hm : s.stage.getD 0 0 >>> 4 = 0x8 ∨ s.stage.getD 0 0 >>> 4 = 0x9 ∨
      s.stage.getD 0 0 >>> 4 = 0xB ∨ s.stage.getD 0 0 >>> 4 = 0xE
  · have h2 : 2 ≤ s.cmd_state := by
      have := hrec hm
      omega
    have hs1 : s.stage.getD 1 0 = t.stage.getD 1 0 :=
      hslot 1 (by omega) (by omega) (by omega)
    have hs2 : s.stage.getD 2 0 = t.stage.getD 2 0 :=
      hslot 2 (by omega) (by omega) (by omega)
    simp only [MIDI_parse, ← h0, ← hch, ← hs1, ← hs2]
    split_ifs <;> simp [hcs]
  · rw [MIDI_parse_not_recognized hm, MIDI_parse_not_recognized (by rw [← h0]; exact hm)]
    exact ⟨rfl, hcs⟩

lemma MIDI_fsm_sim {s t : State} (h : MIDI_sim s t) (b : Nat) :
    (MIDI_fsm s b).2 = (MIDI_fsm t b).2 ∧ MIDI_sim (MIDI_fsm s b).1 (MIDI_fsm t b).1 := by
  obtain ⟨hch, hsl, htl, hcs, hcle, hrest⟩ := h
  have hM : MIDI_MAX_CMD_LEN = 8 := rfl
  by_cases hFF : b = 0xFF
  · subst hFF
    rw [MIDI_fsm_reset, MIDI_fsm_reset]
    dsimp only
    have hg0s : (s.stage.set 0 0xFF).getD 0 0 = 0xFF := getD_set_self _ (by omega)
    have hg0t : (t.stage.set 0 0xFF).getD 0 0 = 0xFF := getD_set_self _ (by omega)
    refine ⟨rfl, hch, by simpa using hsl, by simpa using htl, rfl, Nat.zero_le _, Or.inl ?_⟩
    refine ⟨rfl, by rw [hg0s, hg0t], ?_, ?_⟩
    · intro hx
      rw [hg0s] at hx
      exact absurd hx (by decide)
    · exact fun i h1 h2 h3 => absurd (le_trans h1 h3) (Nat.not_succ_le_zero 0)
  · by_cases hst : 0x80 ≤ b
    · rw [MIDI_fsm_status s hst hFF, MIDI_fsm_status t hst hFF]
      dsimp only
      have hg0s : (s.stage.set 0 b).getD 0 0 = b := getD_set_self _ (by omega)
      have hg0t : (t.stage.set 0 b).getD 0 0 = b := getD_set_self _ (by omega)
      refine ⟨rfl, hch, by simpa using hsl, by simpa using htl, rfl, Nat.zero_le _, Or.inl ?_⟩
      refine ⟨rfl, by rw [hg0s, hg0t], ?_, ?_⟩
      · intro hx
        rw [hg0s] at hx
        exact MIDI_classify_length_two hx
      · exact fun i h1 h2 h3 => absurd (le_trans h1 h3) (Nat.not_succ_le_zero 0)
    · have hb : b < 0x80 := by omega
      by_cases hc : s.cmd_state < MIDI_MAX_CMD_LEN
      · have hct : t.cmd_state < MIDI_MAX_CMD_LEN := hcs ▸ hc
        rw [MIDI_fsm_data_incr s hb hc, MIDI_fsm_data_incr t hb hct, ← hcs]
        by_cases hc1 : s.cmd_state + 1 < MIDI_MAX_CMD_LEN
        · rw [if_pos hc1, if_pos hc1]
          dsimp only
          refine ⟨rfl, hch, by simpa using hsl, by simpa using htl, rfl,
            Nat.succ_le_of_lt hc, ?_⟩
          rcases hrest with hlive | hdead
          · obtain ⟨hml, h0, hrec, hslot⟩ := hlive
            refine Or.inl ⟨hml, ?_, ?_, ?_⟩
            · rw [getD_set_ne b (by omega), getD_set_ne b (by omega)]
              exact h0
            · rw [getD_set_ne b (by omega)]
              exact hrec
            · intro i h1 h2 h3
              have h3' : i ≤ s.cmd_state + 1 := h3
              by_cases hi : i = s.cmd_state + 1
              · subst hi
                rw [getD_set_self _ (by omega), getD_set_self _ (by omega)]
              · rw [getD_set_ne b (fun hx => hi hx.symm), getD_set_ne b (fun hx => hi hx.symm)]
                exact hslot i h1 h2 (by omega)
          · exact Or.inr hdead
        · rw [if_neg hc1, if_neg hc1]
          dsimp only
          refine ⟨rfl, hch, hsl, htl, rfl, Nat.succ_le_of_lt hc, ?_⟩
          rcases hrest with hlive | hdead
          · obtain ⟨hml, h0, hrec, hslot⟩ := hlive
            refine Or.inl ⟨hml, h0, hrec, ?_⟩
            intro i h1 h2 h3
            exact hslot i h1 h2 (by omega)
          · exact Or.inr hdead
      · have hct : ¬ t.cmd_state < MIDI_MAX_CMD_LEN := hcs ▸ hc
        rw [MIDI_fsm_data_wrap s hb hc, MIDI_fsm_data_wrap t hb hct]
        dsimp only
        have hg0s : (s.stage.set 0 b).getD 0 0 = b := getD_set_self _ (by omega)
        have hg0t : (t.stage.set 0 b).getD 0 0 = b := getD_set_self _ (by omega)
        refine ⟨rfl, hch, by simpa using hsl, by simpa using htl, rfl, Nat.zero_le _, ?_⟩
        rcases hrest with hlive | hdead
        · refine Or.inl ⟨hlive.1, by rw [hg0s, hg0t], ?_, ?_⟩
          · intro hx
            rw [hg0s] at hx
            have hlt := shiftRight4_lt hb
            rcases hx with hx | hx | hx | hx <;> omega
          · exact fun i h1 h2 h3 => absurd (le_trans h1 h3) (Nat.not_succ_le_zero 0)
        · exact Or.inr hdead

lemma MIDI_step_sim {s t : State} (h : MIDI_sim s t) (b : Nat) :
    (MIDI_step s b).2 = (MIDI_step t b).2 ∧ MIDI_sim (MIDI_step s b).1 (MIDI_step t b).1 := by
  obtain ⟨hf2, hfsim⟩ := MIDI_fsm_sim h b
  obtain ⟨hch', hsl', htl', hcs', hcle', hrest'⟩ := hfsim
  by_cases htr : (MIDI_fsm s b).1.message_length ≤ (MIDI_fsm s b).1.cmd_state
  · have hlive : MIDI_simLive (MIDI_fsm s b).1 (MIDI_fsm t b).1 := by
      rcases hrest' with hlive | hdead
      · exact hlive
      · exact absurd htr (by omega)
    have htr' : (MIDI_fsm t b).1.message_length ≤ (MIDI_fsm t b).1.cmd_state := by
      rw [← hlive.1, ← hcs']
      exact htr
    obtain ⟨ho, hc2⟩ := MIDI_parse_sim hch' hcs' hlive htr
    simp only [MIDI_step]
    rw [if_pos htr, if_pos htr']
    refine ⟨by rw [hf2, ho], ?_⟩
    refine ⟨?_, ?_, ?_, hc2, ?_, Or.inl (MIDI_simLive_parse hlive)⟩
    · rw [MIDI_parse_channel, MIDI_parse_channel, hch']
    · rw [MIDI_parse_stage]
      exact hsl'
    · rw [MIDI_parse_stage]
      exact htl'
    · exact le_trans (MIDI_parse_cmd_state_le _) hcle'
  · have htr' : ¬ (MIDI_fsm t b).1.message_length ≤ (MIDI_fsm t b).1.cmd_state := by
      rcases hrest' with hlive | hdead
      · rw [← hlive.1, ← hcs']
        exact htr
      · omega
    simp only [MIDI_step]
    rw [if_neg htr, if_neg htr']
    exact ⟨hf2, hch', hsl', htl', hcs', hcle', hrest'⟩

lemma MIDI_run_sim {s t : State} (h : MIDI_sim s t) (bs : List Nat) :
    (MIDI_run s bs).2 = (MIDI_run t bs).2 ∧ MIDI_sim (MIDI_run s bs).1 (MIDI_run t bs).1 := by
  induction bs generalizing s t with
  | nil => exact ⟨rfl, h⟩
  | cons b bs ih =>
    obtain ⟨ho, hsim⟩ := MIDI_step_sim h b
    obtain ⟨ho2, hsim2⟩ := ih hsim
    exact ⟨by simp [MIDI_run, ho, ho2], by simpa [MIDI_run] using hsim2⟩

lemma MIDI_step_status_sim {s t : State} (hch : s.channel = t.channel)
    (hsl : s.stage.length = MIDI_MAX_CMD_LEN) (htl : t.stage.length = MIDI_MAX_CMD_LEN)
    {b : Nat} (hb : 0x80 ≤ b) :
    (MIDI_step s b).2 = (MIDI_step t b).2 ∧
      MIDI_sim (MIDI_step s b).1 (MIDI_step t b).1 := by
  have hM : MIDI_MAX_CMD_LEN = 8 := rfl
  by_cases hFF : b = 0xFF
  · subst hFF
    rw [MIDI_step_reset, MIDI_step_reset]
    dsimp only
    have hg0s : (s.stage.set 0 0xFF).getD 0 0 = 0xFF := getD_set_self _ (by omega)
    have hg0t : (t.stage.set 0 0xFF).getD 0 0 = 0xFF := getD_set_self _ (by omega)
    refine ⟨rfl, hch, by simpa using hsl, by simpa using htl, rfl, Nat.zero_le _, Or.inl ?_⟩
    refine ⟨rfl, by rw [hg0s, hg0t], ?_, ?_⟩
    · intro hx
      rw [hg0s] at hx
      exact absurd hx (by decide)
    · exact fun i h1 h2 h3 => absurd (le_trans h1 h3) (Nat.not_succ_le_zero 0)
  · rw [MIDI_step_status s hb hFF, MIDI_step_status t hb hFF]
    dsimp only
    have hg0s : (s.stage.set 0 b).getD 0 0 = b := getD_set_self _ (by omega)
    have hg0t : (t.stage.set 0 b).getD 0 0 = b := getD_set_self _ (by omega)
    refine ⟨rfl, hch, by simpa using hsl, by simpa using htl, rfl, Nat.zero_le _, Or.inl ?_⟩
    refine ⟨rfl, by rw [hg0s, hg0t], ?_, ?_⟩
    · intro hx
      rw [hg0s] at hx
      exact MIDI_classify_length_two hx
    · exact fun i h1 h2 h3 => absurd (le_trans h1 h3) (Nat.not_succ_le_zero 0)

lemma MIDI_init_stage_length (ch : Nat) : (MIDI_init ch).stage.length = MIDI_MAX_CMD_LEN := by
  simp [MIDI_init]

lemma MIDI_run_fresh_after (ch : Nat) {s : State} (hch : s.channel = (MIDI_init ch).channel)
    (hsl : s.stage.length = MIDI_MAX_CMD_LEN) {b : Nat} (hb : 0x80 ≤ b) (bs : List Nat) :
    (MIDI_run s (b :: bs)).2 = (MIDI_run (MIDI_init ch) (b :: bs)).2 := by
  obtain ⟨ho, hsim⟩ := MIDI_step_status_sim hch hsl (MIDI_init_stage_length ch) hb
  obtain ⟨ho2, _⟩ := MIDI_run_sim hsim bs
  simp [MIDI_run, ho, ho2]

lemma MIDI_step_data_dead {s : State} {b : Nat} (hb : b < 0x80)
    (hml : MIDI_MAX_CMD_LEN < s.message_length) :
    (MIDI_step s b).2 = [] ∧
      (MIDI_step s b).1 = (MIDI_fsm s b).1 ∧
      (MIDI_step s b).1.message_length = s.message_length := by
  have hle := MIDI_fsm_cmd_state_le s b
  have hml' : (MIDI_fsm s b).1.message_length = s.message_length := by
    by_cases hc : s.cmd_state < MIDI_MAX_CMD_LEN
    · rw [MIDI_fsm_data_incr s hb hc]
      split_ifs <;> rfl
    · rw [MIDI_fsm_data_wrap s hb hc]
  have hfe : (MIDI_fsm s b).2 = [] := by
    by_cases hc : s.cmd_state < MIDI_MAX_CMD_LEN
    · rw [MIDI_fsm_data_incr s hb hc]
      split_ifs <;> rfl
    · rw [MIDI_fsm_data_wrap s hb hc]
  have hno : ¬ (MIDI_fsm s b).1.message_length ≤ (MIDI_fsm s b).1.cmd_state := by
    rw [hml']
    omega
  simp only [MIDI_step]
  rw [if_neg hno]
  exact ⟨hfe, rfl, hml'⟩

lemma MIDI_run_data_dead {s : State} {ds : List Nat}
    (hml : MIDI_MAX_CMD_LEN < s.message_length) (hd : ∀ d ∈ ds, d < 0x80) :
    (MIDI_run s ds).2 = [] ∧
      (MIDI_run s ds).1.message_length = s.message_length := by
  induction ds generalizing s with
  | nil => exact ⟨rfl, rfl⟩
  | cons d ds ih =>
    have hd0 : d < 0x80 := hd d (by simp)
    obtain ⟨he, _, hm⟩ := MIDI_step_data_dead hd0 hml
    have ih' := ih (s := (MIDI_step s d).1) (by rw [hm]; exact hml)
    simp only [MIDI_run]
    constructor
    · simp [he, (ih' (fun d hmem => hd d (by simp [hmem]))).1]
    · rw [(ih' (fun d hmem => hd d (by simp [hmem]))).2, hm]

lemma MIDI_step_data_mid {s : State} {b : Nat} (hb : b < 0x80)
    (hc : s.cmd_state + 1 < MIDI_MAX_CMD_LEN)
    (hml : ¬ s.message_length ≤ s.cmd_state + 1) :
    MIDI_step s b =
      ({ s with cmd_state := s.cmd_state + 1,
                stage := s.stage.set (s.cmd_state + 1) b }, []) := by
  simp only [MIDI_step]
  rw [MIDI_fsm_data_incr s hb (by omega), if_pos hc]
  dsimp only
  rw [if_neg hml]

lemma MIDI_step_data_complete {s : State} {b : Nat} (hb : b < 0x80)
    (hc : s.cmd_state + 1 < MIDI_MAX_CMD_LEN)
    (hml : s.message_length ≤ s.cmd_state + 1) :
    MIDI_step s b =
      MIDI_parse { s with cmd_state := s.cmd_state + 1,
                          stage := s.stage.set (s.cmd_state + 1) b } := by
  simp only [MIDI_step]
  rw [MIDI_fsm_data_incr s hb (by omega), if_pos hc]
  dsimp only
  rw [if_pos hml]
  simp

lemma MIDI_run_status2 (ch : Nat) {b : Nat} (hb : 0x80 ≤ b) (hFF : b ≠ 0xFF)
    (h2 : MIDI_classify_length b = 2) {d1 d2 : Nat} (hd1 : d1 < 0x80) (hd2 : d2 < 0x80) :
    (MIDI_run (MIDI_init ch) [b]).2 = [] ∧
    (MIDI_run (MIDI_init ch) [b, d1]).2 = [] ∧
    MIDI_run (MIDI_init ch) [b, d1, d2] =
      MIDI_parse
        { cmd_state := 2, message_length := 2,
          stage := (((MIDI_init ch).stage.set 0 b).set 1 d1).set 2 d2,
          channel := (MIDI_init ch).channel } := by
  have hs1 : MIDI_step (MIDI_init ch) b =
      ({ cmd_state := 0, message_length := 2,
         stage := (MIDI_init ch).stage.set 0 b,
         channel := (MIDI_init ch).channel }, []) := by
    rw [MIDI_step_status _ hb hFF, h2]
  have hs2 : MIDI_step
      { cmd_state := 0, message_length := 2,
        stage := (MIDI_init ch).stage.set 0 b,
        channel := (MIDI_init ch).channel } d1 =
      ({ cmd_state := 1, message_length := 2,
         stage := ((MIDI_init ch).stage.set 0 b).set 1 d1,
         channel := (MIDI_init ch).channel }, []) := by
    rw [MIDI_step_data_mid hd1 (by simp [MIDI_MAX_CMD_LEN]) (by simp)]
  have hs3 : MIDI_step
      { cmd_state := 1, message_length := 2,
        stage := ((MIDI_init ch).stage.set 0 b).set 1 d1,
        channel := (MIDI_init ch).channel } d2 =
      MIDI_parse
        { cmd_state := 2, message_length := 2,
          stage := (((MIDI_init ch).stage.set 0 b).set 1 d1).set 2 d2,
          channel := (MIDI_init ch).channel } := by
    rw [MIDI_step_data_complete hd2 (by simp [MIDI_MAX_CMD_LEN]) (by simp)]
  refine ⟨?_, ?_, ?_⟩
  · simp [MIDI_run, hs1]
  · simp [MIDI_run, hs1, hs2]
  · simp [MIDI_run, hs1, hs2, hs3]

lemma MIDI_stage3_getD (ch b d1 d2 : Nat) :
    ((((MIDI_init ch).stage.set 0 b).set 1 d1).set 2 d2).getD 0 0 = b ∧
    ((((MIDI_init ch).stage.set 0 b).set 1 d1).set 2 d2).getD 1 0 = d1 ∧
    ((((MIDI_init ch).stage.set 0 b).set 1 d1).set 2 d2).getD 2 0 = d2 := by
  have hlen : (MIDI_init ch).stage.length = 8 := MIDI_init_stage_length ch
  refine ⟨?_, ?_, ?_⟩
  · rw [getD_set_ne d2 (by omega), getD_set_ne d1 (by omega),
      getD_set_self b (by omega)]
  · rw [getD_set_ne d2 (by omega), getD_set_self d1 (by simp [hlen])]
  · rw [getD_set_self d2 (by simp [hlen])]

lemma mem_MIDI_consumed {x b v : Nat} (hx : x ∈ MIDI_consumed b v) : b ≤ x ∧ x < v := by
  simp only [MIDI_consumed, List.mem_range'] at hx
  obtain ⟨i, hi, rfl⟩ := hx
  omega

lemma MIDI_valid_seq_tail {v : Nat} {vs : List Nat} (h : MIDI_valid_seq (v :: vs)) :
    MIDI_valid_seq vs := by
  cases vs with
  | nil => trivial
  | cons w ws => exact h.2.2

lemma MIDI_valid_seq_head_le {v : Nat} {vs : List Nat} (h : MIDI_valid_seq (v :: vs)) :
    ∀ w ∈ vs, v ≤ w := by
  induction vs generalizing v with
  | nil => simp
  | cons w ws ih =>
    intro x hx
    rcases List.mem_cons.mp hx with rfl | hx
    · exact h.2.1
    · exact le_trans h.2.1 (ih h.2.2 x hx)

lemma MIDI_passes_lb {vs : List Nat} (h : MIDI_valid_seq vs) :
    ∀ b, (∀ v ∈ vs, b ≤ v) →
      ∀ l ∈ MIDI_passes b vs, ∀ x ∈ l, b ≤ x := by
  induction vs with
  | nil => simp [MIDI_passes]
  | cons v vs ih =>
    intro b hb l hl x hx
    rcases List.mem_cons.mp hl with rfl | hl
    · exact (mem_MIDI_consumed hx).1
    · cases vs with
      | nil => simp [MIDI_passes] at hl
      | cons w ws =>
        have hv : MIDI_next_index v = v := by
          have : v < MIDI_BUFF_SIZE - 1 := h.1
          simp only [MIDI_next_index]
          rw [if_neg (by omega)]
        have hb' : ∀ u ∈ w :: ws, v ≤ u := MIDI_valid_seq_head_le h
        have := ih (MIDI_valid_seq_tail h) v hb' l (by rwa [hv] at hl) x hx
        exact le_trans (hb v (List.mem_cons_self v _)) this

lemma MIDI_passes_pairwise_disjoint {vs : List Nat} (h : MIDI_valid_seq vs) (b : Nat) :
    List.Pairwise (fun l1 l2 => ∀ x ∈ l1, x ∉ l2) (MIDI_passes b vs) := by
  induction vs generalizing b with
  | nil => exact List.Pairwise.nil
  | cons v vs ih =>
    refine List.Pairwise.cons ?_ (ih (MIDI_valid_seq_tail h) (MIDI_next_index v))
    intro l hl x hx hxl
    have hxv : x < v := (mem_MIDI_consumed hx).2
    cases vs with
    | nil => simp [MIDI_passes] at hl
    | cons w ws =>
      have hv : MIDI_next_index v = v := by
        have : v < MIDI_BUFF_SIZE - 1 := h.1
        simp only [MIDI_next_index]
        rw [if_neg (by omega)]
      have := MIDI_passes_lb (MIDI_valid_seq_tail h) v
        (MIDI_valid_seq_head_le h) l (by rwa [hv] at hl) x hxl
      omega

lemma MIDI_fsm_stage_data {s : State} (hlen : s.stage.length = MIDI_MAX_CMD_LEN)
    (h : ∀ i, 1 ≤ i → i < MIDI_MAX_CMD_LEN → s.stage.getD i 0 < 0x80) (b : Nat) :
    ∀ i, 1 ≤ i → i < MIDI_MAX_CMD_LEN → (MIDI_fsm s b).1.stage.getD i 0 < 0x80 := by
  have hM : MIDI_MAX_CMD_LEN = 8 := rfl
  intro i h1 h2
  by_cases hFF : b = 0xFF
  · subst hFF
    rw [MIDI_fsm_reset]
    dsimp only
    rw [getD_set_ne _ (by omega)]
    exact h i h1 h2
  · by_cases hst : 0x80 ≤ b
    · rw [MIDI_fsm_status s hst hFF]
      dsimp only
      rw [getD_set_ne _ (by omega)]
      exact h i h1 h2
    · have hb : b < 0x80 := by omega
      by_cases hc : s.cmd_state < MIDI_MAX_CMD_LEN
      · rw [MIDI_fsm_data_incr s hb hc]
        by_cases hc1 : s.cmd_state + 1 < MIDI_MAX_CMD_LEN
        · rw [if_pos hc1]
          dsimp only
          by_cases hi : i = s.cmd_state + 1
          · subst hi
            rw [getD_set_self _ (by omega)]
            exact hb
          · rw [getD_set_ne _ (fun hx => hi hx.symm)]
            exact h i h1 h2
        · rw [if_neg hc1]
          exact h i h1 h2
      · rw [MIDI_fsm_data_wrap s hb hc]
        dsimp only
        rw [getD_set_ne _ (by omega)]
        exact h i h1 h2

lemma MIDI_run_stage_data {s : State} (hlen : s.stage.length = MIDI_MAX_CMD_LEN)
    (h : ∀ i, 1 ≤ i → i < MIDI_MAX_CMD_LEN → s.stage.getD i 0 < 0x80) (bs : List Nat) :
    ∀ i, 1 ≤ i → i < MIDI_MAX_CMD_LEN →
      (MIDI_run s bs).1.stage.getD i 0 < 0x80 := by
  induction bs generalizing s with
  | nil => exact h
  | cons b bs ih =>
    have hstep : ∀ i, 1 ≤ i → i < MIDI_MAX_CMD_LEN →
        (MIDI_step s b).1.stage.getD i 0 < 0x80 := by
      have hfsm := MIDI_fsm_stage_data hlen h b
      intro i h1 h2
      simp only [MIDI_step]
      split_ifs
      · dsimp only
        rw [MIDI_parse_stage]
        exact hfsm i h1 h2
      · exact hfsm i h1 h2
    have hlen' : (MIDI_step s b).1.stage.length = MIDI_MAX_CMD_LEN := by
      rw [MIDI_step_stage_length]
      exact hlen
    simpa [MIDI_run] using ih hlen' hstep

/-- Claim C3: starting from the initial decoder state listening on all
channels, feeding `0x90 0x40 0x7F 0x41 0x00` produces exactly the two
callbacks `NoteOn(0x40, 0x7F)` then `NoteOff(0x41, 0)`: the bare data pair
reuses the 0x90 running status and the zero velocity triggers the implicit
note-off. -/
theorem claim_C3_running_status :
    (MIDI_run (MIDI_init MIDI_CHANNEL_ALL) [0x90, 0x40, 0x7F, 0x41, 0x00]).2 =
      [Event.noteOn 0x40 0x7F, Event.noteOff 0x41 0] := by
  decide

/-- Counterexample to claim C1 as stated: feeding `0xE0 0x00 0x00` does not
invoke the pitch-bend callback with `-8192`; the `int` expression
`-8192` is converted to the callback's `uint16_t` parameter, which receives
`57344`. -/
theorem claim_C1_counterexample :
    (MIDI_run (MIDI_init MIDI_CHANNEL_ALL) [0xE0, 0x00, 0x00]).2 ≠
      [Event.pitchBend (-8192)] ∧
    (MIDI_run (MIDI_init MIDI_CHANNEL_ALL) [0xE0, 0x00, 0x00]).2 =
      [Event.pitchBend 57344] := by
  decide

/-- Claim C1 (amended): for a completed pitch-bend command (status nibble
0xE, matching channel) the dispatcher invokes the pitch-bend callback with
`((data1 & 0x7F) | ((data2 & 0x7F) << 7)) - 8192` reduced modulo 2^16 (the
callback parameter is `uint16_t`).  The underlying signed value lies in
[-8192, 8191] and is passed through unchanged when non-negative, while
negative values wrap by +65536; so `0xE0 0x00 0x40` yields `PitchBend(0)`,
`0xE0 0x7F 0x7F` yields `PitchBend(8191)` and `0xE0 0x00 0x00` yields
`PitchBend(57344)`, the 16-bit two's-complement encoding of -8192. -/
theorem claim_C1_pitch_bend (s : State)
    (hmsb : s.stage.getD 0 0 >>> 4 = 0xE)
    (hch : s.channel = MIDI_CHANNEL_ALL ∨ s.stage.getD 0 0 &&& 0xF = s.channel) :
    (MIDI_parse s).2 =
      [Event.pitchBend (MIDI_pitchBend_param (s.stage.getD 1 0) (s.stage.getD 2 0))] ∧
    (∀ d1 d2 : Nat,
      -8192 ≤ (((d1 &&& 0x7F) ||| ((d2 &&& 0x7F) <<< 7) : Nat) : Int) - 8192 ∧
      (((d1 &&& 0x7F) ||| ((d2 &&& 0x7F) <<< 7) : Nat) : Int) - 8192 ≤ 8191 ∧
      MIDI_pitchBend_param d1 d2 =
        ((((d1 &&& 0x7F) ||| ((d2 &&& 0x7F) <<< 7) : Nat) : Int) - 8192) % 65536 ∧
      (8192 ≤ ((d1 &&& 0x7F) ||| ((d2 &&& 0x7F) <<< 7) : Nat) →
        MIDI_pitchBend_param d1 d2 =
          (((d1 &&& 0x7F) ||| ((d2 &&& 0x7F) <<< 7) : Nat) : Int) - 8192) ∧
      (((d1 &&& 0x7F) ||| ((d2 &&& 0x7F) <<< 7) : Nat) < 8192 →
        MIDI_pitchBend_param d1 d2 =
          (((d1 &&& 0x7F) ||| ((d2 &&& 0x7F) <<< 7) : Nat) : Int) + 57344)) ∧
    (MIDI_run (MIDI_init MIDI_CHANNEL_ALL) [0xE0, 0x00, 0x40]).2 = [Event.pitchBend 0] ∧
    (MIDI_run (MIDI_init MIDI_CHANNEL_ALL) [0xE0, 0x7F, 0x7F]).2 = [Event.pitchBend 8191] ∧
    (MIDI_run (MIDI_init MIDI_CHANNEL_ALL) [0xE0, 0x00, 0x00]).2 = [Event.pitchBend 57344] := by
  refine ⟨?_, ?_, by decide, by decide, by decide⟩
  · simp only [MIDI_parse]
    rw [if_pos hch, hmsb]
    norm_num
  · intro d1 d2
    have hm2 : d2 &&& 0x7F ≤ 0x7F := Nat.and_le_right
    have hsh : (d2 &&& 0x7F) <<< 7 = (d2 &&& 0x7F) * 2 ^ 7 := Nat.shiftLeft_eq _ 7
    have hcb : ((d1 &&& 0x7F) ||| ((d2 &&& 0x7F) <<< 7)) < 2 ^ 14 := by
      refine Nat.or_lt_two_pow ?_ ?_
      · have : d1 &&& 0x7F ≤ 0x7F := Nat.and_le_right
        omega
      · omega
    have hcb' : ((d1 &&& 0x7F) ||| ((d2 &&& 0x7F) <<< 7)) < 16384 := by omega
    refine ⟨by omega, by omega, rfl, ?_, ?_⟩ <;>
      (intro h; simp only [MIDI_pitchBend_param]; omega)

/-- Witness for C1: the amended theorem applied to the concrete state left
by `0xE0 0x00 0x00`, whose dispatch yields `PitchBend(57344)`. -/
theorem claim_C1_pitch_bend_witness :
    ((⟨2, 2, [0xE0, 0, 0, 0, 0, 0, 0, 0], MIDI_CHANNEL_ALL⟩ : State).stage.getD 0 0 >>> 4
        = 0xE) ∧
    (MIDI_parse (⟨2, 2, [0xE0, 0, 0, 0, 0, 0, 0, 0], MIDI_CHANNEL_ALL⟩ : State)).2 =
      [Event.pitchBend 57344] := by
  refine ⟨by decide, ?_⟩
  have h := claim_C1_pitch_bend ⟨2, 2, [0xE0, 0, 0, 0, 0, 0, 0, 0], MIDI_CHANNEL_ALL⟩
    (by decide) (Or.inl rfl)
  exact h.1.trans (by decide)

/-- Claim C4: in every decoder state, the byte 0xFF resets the parser
position to 0, sets the expected length to 0xFF (which no accumulation can
reach, as witnessed by the silent run over any further data bytes), and
immediately emits exactly one SystemReset event, regardless of the
configured channel; `0x90 0x40 0xFF` yields only SystemReset and no NoteOn,
and after the 0xFF the decoder behaves on any following status byte exactly
like a freshly initialized decoder with the same channel. -/
theorem claim_C4_system_reset (s : State) (ch : Nat)
    (hch : s.channel = (MIDI_init ch).channel)
    (hsl : s.stage.length = MIDI_MAX_CMD_LEN)
    (ds : List Nat) (hd : ∀ d ∈ ds, d < 0x80)
    {b : Nat} (hb : 0x80 ≤ b) (bs : List Nat) :
    MIDI_step s 0xFF =
      ({ s with cmd_state := 0, message_length := 0xFF, stage := s.stage.set 0 0xFF },
       [Event.systemReset]) ∧
    (MIDI_run (MIDI_step s 0xFF).1 ds).2 = [] ∧
    (MIDI_run (MIDI_init MIDI_CHANNEL_ALL) [0x90, 0x40, 0xFF]).2 = [Event.systemReset] ∧
    (MIDI_run (MIDI_step s 0xFF).1 (b :: bs)).2 = (MIDI_run (MIDI_init ch) (b :: bs)).2 := by
  have hml : (MIDI_step s 0xFF).1.message_length = 0xFF := by
    rw [MIDI_step_reset]
  refine ⟨MIDI_step_reset s, ?_, by decide, ?_⟩
  · exact (MIDI_run_data_dead (by rw [hml]; norm_num [MIDI_MAX_CMD_LEN]) hd).1
  · exact MIDI_run_fresh_after ch (by rw [MIDI_step_channel]; exact hch)
      (by rw [MIDI_step_stage_length]; exact hsl) hb bs

/-- Witness for C4: from a decoder initialized on channel 5, the byte 0xFF
emits SystemReset, following data bytes stay silent, and a later note-on
command behaves as from a fresh decoder. -/
theorem claim_C4_system_reset_witness :
    (MIDI_step (MIDI_init 5) 0xFF).2 = [Event.systemReset] ∧
    (MIDI_run (MIDI_step (MIDI_init 5) 0xFF).1 [0x10, 0x20]).2 = [] ∧
    (MIDI_run (MIDI_step (MIDI_init 5) 0xFF).1 [0x90, 0x40, 0x7F]).2 =
      (MIDI_run (MIDI_init 5) [0x90, 0x40, 0x7F]).2 := by
  have h := claim_C4_system_reset (MIDI_init 5) 5 rfl (MIDI_init_stage_length 5)
    [0x10, 0x20] (by decide) (b := 0x90) (by decide) [0x40, 0x7F]
  exact ⟨by rw [h.1], h.2.1, h.2.2.2⟩

/-- Claim C6: a SysEx-start byte 0xF0 followed by any number of data bytes
never invokes any callback, and once a status byte arrives, the whole
remaining stream is decoded exactly as by a fresh decoder with the same
channel (no desynchronization). -/
theorem claim_C6_sysex_ignored (ch : Nat) (ds : List Nat) (hd : ∀ d ∈ ds, d < 0x80)
    {b : Nat} (hb : 0x80 ≤ b) (bs : List Nat) :
    (MIDI_run (MIDI_init ch) (0xF0 :: ds)).2 = [] ∧
    (MIDI_run (MIDI_init ch) (0xF0 :: (ds ++ b :: bs))).2 =
      (MIDI_run (MIDI_init ch) (b :: bs)).2 := by
  have hstep : MIDI_step (MIDI_init ch) 0xF0 =
      ({ cmd_state := 0, message_length := MIDI_classify_length 0xF0,
         stage := (MIDI_init ch).stage.set 0 0xF0,
         channel := (MIDI_init ch).channel }, []) :=
    MIDI_step_status _ (by norm_num) (by norm_num)
  have hcl : MIDI_classify_length 0xF0 = 0xFF := by decide
  have hml : MIDI_MAX_CMD_LEN < (MIDI_step (MIDI_init ch) 0xF0).1.message_length := by
    rw [hstep]
    show MIDI_MAX_CMD_LEN < MIDI_classify_length 0xF0
    rw [hcl]
    norm_num [MIDI_MAX_CMD_LEN]
  obtain ⟨hds, _⟩ := MIDI_run_data_dead hml hd
  constructor
  · simp only [MIDI_run]
    rw [hds]
    simp [hstep]
  · simp only [MIDI_run]
    rw [MIDI_run_append]
    have hfr := MIDI_run_fresh_after ch
      (s := (MIDI_run (MIDI_step (MIDI_init ch) 0xF0).1 ds).1)
      (by rw [MIDI_run_channel, MIDI_step_channel])
      (by rw [MIDI_run_stage_length, MIDI_step_stage_length]; exact MIDI_init_stage_length ch)
      hb bs
    rw [hds, hfr]
    simp [hstep, MIDI_run]

/-- Witness for C6: `0xF0 0x01 0x02 0x03` is silent, and a following
note-on command decodes exactly as from a fresh decoder. -/
theorem claim_C6_sysex_ignored_witness :
    (MIDI_run (MIDI_init 0xFF) [0xF0, 0x01, 0x02, 0x03]).2 = [] ∧
    (MIDI_run (MIDI_init 0xFF) [0xF0, 0x01, 0x02, 0x03, 0x90, 0x40, 0x7F]).2 =
      (MIDI_run (MIDI_init 0xFF) [0x90, 0x40, 0x7F]).2 ∧
    (MIDI_run (MIDI_init 0xFF) [0x90, 0x40, 0x7F]).2 = [Event.noteOn 0x40 0x7F] := by
  have h := claim_C6_sysex_ignored 0xFF [0x01, 0x02, 0x03] (by decide)
    (b := 0x90) (by decide) [0x40, 0x7F]
  exact ⟨h.1, h.2, by decide⟩

/-- Claim C5: for every supported status byte (nibble 0x8/0x9/0xB/0xE) on a
matching channel, feeding from the reset state the status byte plus its two
expected data bytes produces exactly one matching event with 7-bit-masked
data arguments, and no callback fires before the final data byte. -/
theorem claim_C5_supported_commands (ch b d1 d2 : Nat)
    (hmsb : b >>> 4 = 0x8 ∨ b >>> 4 = 0x9 ∨ b >>> 4 = 0xB ∨ b >>> 4 = 0xE)
    (hd1 : d1 < 0x80) (hd2 : d2 < 0x80)
    (hch : (MIDI_init ch).channel = MIDI_CHANNEL_ALL ∨
           b &&& 0xF = (MIDI_init ch).channel) :
    (MIDI_run (MIDI_init ch) [b]).2 = [] ∧
    (MIDI_run (MIDI_init ch) [b, d1]).2 = [] ∧
    (MIDI_run (MIDI_init ch) [b, d1, d2]).2 =
      (if b >>> 4 = 0x8 then [Event.noteOff (d1 &&& 0x7F) (d2 &&& 0x7F)]
       else if b >>> 4 = 0x9 then
         (if d2 = 0 then [Event.noteOff (d1 &&& 0x7F) 0]
          else [Event.noteOn (d1 &&& 0x7F) (d2 &&& 0x7F)])
       else if b >>> 4 = 0xB then [Event.cc (d1 &&& 0x7F) (d2 &&& 0x7F)]
       else [Event.pitchBend (MIDI_pitchBend_param d1 d2)]) := by
  have hdiv : b >>> 4 = b / 16 := Nat.shiftRight_eq_div_pow b 4
  have hb : 0x80 ≤ b := by
    rcases hmsb with h | h | h | h <;> (rw [hdiv] at h; omega)
  have hFF : b ≠ 0xFF := by
    rcases hmsb with h | h | h | h <;> (rw [hdiv] at h; omega)
  have h2 := MIDI_classify_length_two hmsb
  obtain ⟨e1, e2, e3⟩ := MIDI_run_status2 ch hb hFF h2 hd1 hd2
  refine ⟨e1, e2, ?_⟩
  rw [e3]
  obtain ⟨g0, g1, g2⟩ := MIDI_stage3_getD ch b d1 d2
  simp only [MIDI_parse]
  rw [g0, g1, g2, if_pos hch]
  rcases hmsb with h | h | h | h <;>
    simp [h, and_0x7F_of_lt hd1, and_0x7F_of_lt hd2, MIDI_pitchBend_param]

/-- Witness for C5: a note-on command `0x90 0x3C 0x40` on all channels
yields exactly `NoteOn(0x3C, 0x40)`, and nothing before the last byte. -/
theorem claim_C5_supported_commands_witness :
    (MIDI_run (MIDI_init 0xFF) [0x90]).2 = [] ∧
    (MIDI_run (MIDI_init 0xFF) [0x90, 0x3C]).2 = [] ∧
    (MIDI_run (MIDI_init 0xFF) [0x90, 0x3C, 0x40]).2 = [Event.noteOn 0x3C 0x40] := by
  have h := claim_C5_supported_commands 0xFF 0x90 0x3C 0x40
    (by decide) (by decide) (by decide) (by decide)
  exact ⟨h.1, h.2.1, h.2.2.trans (by decide)⟩

/-- Counterexample to claim C7 as stated: feeding eight data bytes from the
initial state drives `MIDI_cmd_state` to 8 = `MIDI_MAX_CMD_LEN`, outside
the claimed range {0, ..., MIDI_MAX_CMD_LEN - 1}; the eighth data byte
found the position at 7 = `MIDI_MAX_CMD_LEN` - 1 and incremented it instead
of resetting it to 0. -/
theorem claim_C7_counterexample :
    (MIDI_run (MIDI_init MIDI_CHANNEL_ALL) (List.replicate 7 0x01)).1.cmd_state =
      MIDI_MAX_CMD_LEN - 1 ∧
    (MIDI_run (MIDI_init MIDI_CHANNEL_ALL) (List.replicate 8 0x01)).1.cmd_state =
      MIDI_MAX_CMD_LEN ∧
    ¬ ((MIDI_run (MIDI_init MIDI_CHANNEL_ALL) (List.replicate 8 0x01)).1.cmd_state <
        MIDI_MAX_CMD_LEN) := by
  decide

/-- Claim C7 (amended): in every reachable decoder state the parser
position lies in {0, ..., MIDI_MAX_CMD_LEN} (the value MIDI_MAX_CMD_LEN
itself is reachable, transiently), and on an incoming data byte the
assembler increments the position when it is below MIDI_MAX_CMD_LEN and
otherwise resets it to 0. -/
theorem claim_C7_parser_position (ch : Nat) (bs : List Nat) (s : State) {d : Nat}
    (hd : d < 0x80) :
    (MIDI_run (MIDI_init ch) bs).1.cmd_state ≤ MIDI_MAX_CMD_LEN ∧
    (MIDI_fsm s d).1.cmd_state =
      (if s.cmd_state < MIDI_MAX_CMD_LEN then s.cmd_state + 1 else 0) := by
  constructor
  · exact MIDI_run_cmd_state_le _ _ (Nat.zero_le _)
  · by_cases hc : s.cmd_state < MIDI_MAX_CMD_LEN
    · rw [MIDI_fsm_data_incr s hd hc, if_pos hc]
      split_ifs <;> rfl
    · rw [MIDI_fsm_data_wrap s hd hc, if_neg hc]

/-- Witness for C7: after one status byte the position is within bounds,
and a data byte arriving at position 0 advances it to 1. -/
theorem claim_C7_parser_position_witness :
    (MIDI_run (MIDI_init 0xFF) [0x90]).1.cmd_state ≤ MIDI_MAX_CMD_LEN ∧
    (MIDI_fsm (MIDI_init 0xFF) 0x01).1.cmd_state = 1 := by
  have h := claim_C7_parser_position 0xFF [0x90] (MIDI_init 0xFF) (d := 0x01) (by decide)
  exact ⟨h.1, h.2.trans (by decide)⟩

/-- Claim C8: initialization maps a channel argument in 1..16 to the
zero-indexed channel (argument - 1) and anything else to AllChannels; the
dispatcher only ever invokes a callback when the configured channel is
AllChannels or equals the status byte's low nibble; concretely, with
channel 1 configured, `0x91 0x3C 0x64` is dropped while `0x90 0x3C 0x64`
yields `NoteOn(0x3C, 0x64)`. -/
theorem claim_C8_channel_filter (ch : Nat) (s : State) :
    (1 ≤ ch ∧ ch ≤ 16 → (MIDI_init ch).channel = ch - 1) ∧
    (¬(1 ≤ ch ∧ ch ≤ 16) → (MIDI_init ch).channel = MIDI_CHANNEL_ALL) ∧
    ((MIDI_parse s).2 ≠ [] →
      s.channel = MIDI_CHANNEL_ALL ∨ s.stage.getD 0 0 &&& 0xF = s.channel) ∧
    (MIDI_run (MIDI_init 1) [0x91, 0x3C, 0x64]).2 = [] ∧
    (MIDI_run (MIDI_init 1) [0x90, 0x3C, 0x64]).2 = [Event.noteOn 0x3C 0x64] := by
  refine ⟨?_, ?_, ?_, by decide, by decide⟩
  · intro h
    simp only [MIDI_init]
    rw [if_pos (⟨h.1, h.2⟩ : 0 < ch ∧ ch ≤ 16)]
  · intro h
    simp only [MIDI_init]
    rw [if_neg (fun hx => h ⟨hx.1, hx.2⟩)]
  · intro hne
    by_contra hcon
    exact hne (by rw [MIDI_parse_channel_mismatch hcon])

/-- Witness for C8: channel argument 1 configures zero-indexed channel 0,
channel argument 0 falls back to AllChannels, and the two concrete streams
behave as claimed. -/
theorem claim_C8_channel_filter_witness :
    (MIDI_init 1).channel = 0 ∧
    (MIDI_init 0).channel = MIDI_CHANNEL_ALL ∧
    (MIDI_run (MIDI_init 1) [0x91, 0x3C, 0x64]).2 = [] ∧
    (MIDI_run (MIDI_init 1) [0x90, 0x3C, 0x64]).2 = [Event.noteOn 0x3C 0x64] := by
  have h1 := claim_C8_channel_filter 1 (MIDI_init 1)
  have h0 := claim_C8_channel_filter 0 (MIDI_init 0)
  exact ⟨h1.1 (by decide), h0.2.1 (by decide), h1.2.2.2.1, h1.2.2.2.2⟩

/-- Claim C9: when the dispatcher emits an event for a command with status
nibble 0x8, 0x9, 0xB or 0xE (matching channel), it resets the parser
position to 0; for every other completed command handed to it (poly
pressure 0xA, program change 0xC, channel pressure 0xD, system common
0xF1/0xF2/0xF3 — all status nibbles outside {0x8, 0x9, 0xB, 0xE}), the
dispatcher leaves the entire decoder state unchanged and performs no
reset. -/
theorem claim_C9_post_dispatch_reset (s : State) :
    ((s.stage.getD 0 0 >>> 4 = 0x8 ∨ s.stage.getD 0 0 >>> 4 = 0x9 ∨
      s.stage.getD 0 0 >>> 4 = 0xB ∨ s.stage.getD 0 0 >>> 4 = 0xE) →
     (s.channel = MIDI_CHANNEL_ALL ∨ s.stage.getD 0 0 &&& 0xF = s.channel) →
     (MIDI_parse s).1.cmd_state = 0 ∧ (MIDI_parse s).2 ≠ []) ∧
    (¬(s.stage.getD 0 0 >>> 4 = 0x8 ∨ s.stage.getD 0 0 >>> 4 = 0x9 ∨
       s.stage.getD 0 0 >>> 4 = 0xB ∨ s.stage.getD 0 0 >>> 4 = 0xE) →
     MIDI_parse s = (s, [])) := by
  constructor
  · intro hm hch
    simp only [MIDI_parse]
    rw [if_pos hch]
    rcases hm with h | h | h | h <;> rw [h] <;> norm_num
    split_ifs <;> simp
  · exact MIDI_parse_not_recognized

/-- Witness for C9: a completed note-on dispatch resets the position to 0,
while a completed poly-pressure command (nibble 0xA) leaves the state
untouched. -/
theorem claim_C9_post_dispatch_reset_witness :
    (MIDI_parse ⟨2, 2, [0x90, 0x40, 0x7F, 0, 0, 0, 0, 0], MIDI_CHANNEL_ALL⟩).1.cmd_state
      = 0 ∧
    (MIDI_parse ⟨2, 2, [0x90, 0x40, 0x7F, 0, 0, 0, 0, 0], MIDI_CHANNEL_ALL⟩).2 ≠ [] ∧
    MIDI_parse ⟨2, 2, [0xA0, 0x40, 0x7F, 0, 0, 0, 0, 0], MIDI_CHANNEL_ALL⟩ =
      (⟨2, 2, [0xA0, 0x40, 0x7F, 0, 0, 0, 0, 0], MIDI_CHANNEL_ALL⟩, []) := by
  have h9 := claim_C9_post_dispatch_reset ⟨2, 2, [0x90, 0x40, 0x7F, 0, 0, 0, 0, 0],
    MIDI_CHANNEL_ALL⟩
  have hA := claim_C9_post_dispatch_reset ⟨2, 2, [0xA0, 0x40, 0x7F, 0, 0, 0, 0, 0],
    MIDI_CHANNEL_ALL⟩
  obtain ⟨hr, hne⟩ := h9.1 (by decide) (Or.inl rfl)
  exact ⟨hr, hne, hA.2 (by decide)⟩

/-- Claim C10: in every reachable decoder state (any channel, any input
byte list), staging slots 1 through MIDI_MAX_CMD_LEN - 1 hold values below
0x80, so the 7-bit masks the dispatcher applies to slots 1 and 2 are
identities there — in particular the unmasked control-change arguments
equal their masked values. -/
theorem claim_C10_stage_data_bytes (ch : Nat) (bs : List Nat) :
    (∀ i, 1 ≤ i → i < MIDI_MAX_CMD_LEN →
      (MIDI_run (MIDI_init ch) bs).1.stage.getD i 0 < 0x80) ∧
    (MIDI_run (MIDI_init ch) bs).1.stage.getD 1 0 &&& 0x7F =
      (MIDI_run (MIDI_init ch) bs).1.stage.getD 1 0 ∧
    (MIDI_run (MIDI_init ch) bs).1.stage.getD 2 0 &&& 0x7F =
      (MIDI_run (MIDI_init ch) bs).1.stage.getD 2 0 := by
  have h0 : ∀ i, 1 ≤ i → i < MIDI_MAX_CMD_LEN →
      (MIDI_init ch).stage.getD i 0 < 0x80 := by
    intro i h1 h2
    have hst : (MIDI_init ch).stage = List.replicate 8 0 := rfl
    simp only [MIDI_MAX_CMD_LEN] at h2
    rw [hst, List.getD_eq_getElem?_getD, List.getElem?_replicate, if_pos h2]
    norm_num
  have hinv := MIDI_run_stage_data (MIDI_init_stage_length ch) h0 bs
  exact ⟨hinv,
    and_0x7F_of_lt (hinv 1 (by norm_num) (by norm_num [MIDI_MAX_CMD_LEN])),
    and_0x7F_of_lt (hinv 2 (by norm_num) (by norm_num [MIDI_MAX_CMD_LEN]))⟩

/-- Witness for C10: after `0x90 0x40` the staging slot 1 holds 0x40,
which is below 0x80 and fixed by the 7-bit mask. -/
theorem claim_C10_stage_data_bytes_witness :
    (MIDI_run (MIDI_init 0xFF) [0x90, 0x40]).1.stage.getD 1 0 < 0x80 ∧
    (MIDI_run (MIDI_init 0xFF) [0x90, 0x40]).1.stage.getD 1 0 &&& 0x7F =
      (MIDI_run (MIDI_init 0xFF) [0x90, 0x40]).1.stage.getD 1 0 := by
  have h := claim_C10_stage_data_bytes 0xFF [0x90, 0x40]
  exact ⟨h.1 1 (by decide) (by decide), h.2.1⟩

/-- Counterexample to claim C2 as stated: a pass ending at valid index 127
(which differs from the capacity 128) still wraps the consumed cursor to 0,
and consequently buffer position 0 is consumed both by that pass and by a
later pass that reaches 128 — a byte position is fed to the assembler
twice. -/
theorem claim_C2_counterexample :
    MIDI_next_index 127 = 0 ∧ (127 : Nat) ≠ MIDI_BUFF_SIZE ∧
    (MIDI_check (MIDI_init MIDI_CHANNEL_ALL) 0 127 (List.replicate 128 0)).2.1 = 0 ∧
    0 ∈ MIDI_consumed 0 127 ∧ 0 ∈ MIDI_consumed (MIDI_next_index 127) 128 := by
  refine ⟨by decide, by decide, rfl, by decide, by decide⟩

/-- Claim C2 (amended): after a decode pass the consumed cursor equals the
pass's valid index except that it wraps to 0 whenever the valid index is at
least MIDI_BUFF_SIZE - 1 = 127 (i.e. at 127 or 128, not exactly at the
capacity); consequently, within one buffer cycle in which every non-final
pass stops strictly below 127, the per-pass consumed position ranges are
pairwise disjoint, so no byte position is fed to the assembler twice. -/
theorem claim_C2_cursor (s : State) (b v : Nat) (buffer : List Nat) (vs : List Nat)
    (hvs : MIDI_valid_seq vs) :
    (MIDI_check s b v buffer).2.1 = MIDI_next_index v ∧
    MIDI_next_index v = (if MIDI_BUFF_SIZE - 1 ≤ v then 0 else v) ∧
    List.Pairwise (fun l1 l2 => ∀ x ∈ l1, x ∉ l2) (MIDI_passes 0 vs) := by
  exact ⟨rfl, rfl, MIDI_passes_pairwise_disjoint hvs 0⟩

/-- Witness for C2: the two-pass valid-index sequence 64, 128 is
well-formed, the first pass leaves the cursor at 64, and the two consumed
ranges are disjoint. -/
theorem claim_C2_cursor_witness :
    MIDI_valid_seq [64, 128] ∧
    (MIDI_check (MIDI_init MIDI_CHANNEL_ALL) 0 64 (List.replicate 128 0)).2.1 = 64 ∧
    List.Pairwise (fun l1 l2 => ∀ x ∈ l1, x ∉ l2) (MIDI_passes 0 [64, 128]) := by
  have hvs : MIDI_valid_seq [64, 128] := by
    simp [MIDI_valid_seq, MIDI_BUFF_SIZE]
  have h := claim_C2_cursor (MIDI_init MIDI_CHANNEL_ALL) 0 64 (List.replicate 128 0)
    [64, 128] hvs
  exact ⟨hvs, h.1.trans (by decide), h.2.2⟩

end MIDI
